import Mathlib

/-!
Verification of the streaming chat client in
`src/frontend/js/modules/messaging.js` (strands-agent-chatbot).

The development shallowly embeds the stream-reading loop of `sendMessage`
(the frame parser), the event dispatcher `handleStreamEvent`, the
status-update queue (`queueStatusUpdate` / `processStatusUpdate`), and the
send state machine itself.  JavaScript strings are modelled as `List Char`;
`JSON.parse` is an oracle parameter; wall-clock time is a `Nat` number of
milliseconds.
-/

namespace StrandsChat

/-- JavaScript strings, modelled as lists of characters. -/
abbrev JStr := List Char

/-- `String.prototype.trim()`: strip whitespace from both ends. -/
def jsTrim (l : JStr) : JStr :=
  ((l.dropWhile Char.isWhitespace).reverse.dropWhile Char.isWhitespace).reverse

/-- `s.split('\n')`: split on every newline; always returns at least one
(possibly empty) piece, ``"".split('\n') = [""]``. -/
def splitLines : JStr → List JStr
  | [] => [[]]
  | c :: cs =>
    let rest := splitLines cs
    if c = '\n' then [] :: rest
    else (c :: rest.headD []) :: rest.tail

/-- A decoded protocol frame: one `handleStreamEvent(eventType, eventData)`
invocation. -/
structure Frame where
  eventType : JStr
  data : JStr
deriving DecidableEq, Repr

/-- The pending per-line-loop parser variables `eventType` / `eventData`
(messaging.js lines 657–658). -/
structure PState where
  eventType : JStr
  eventData : JStr
deriving DecidableEq, Repr

/-- `let eventType = 'message'; let eventData = '';` -/
def initPState : PState := ⟨"message".data, []⟩

/-- The body of `for (const line of lines)` (messaging.js lines 660–676):
event-tag lines set the pending event type, data-tag lines overwrite the
pending payload, an empty line emits a frame when a payload is pending,
`:`-lines and everything else are ignored. -/
def processLine (acc : PState × List Frame) (line : JStr) : PState × List Frame :=
  let s := acc.1
  let frames := acc.2
  if ("event:".data).isPrefixOf line then
    ({ s with eventType := jsTrim (line.drop 6) }, frames)
  else if ("data:".data).isPrefixOf line then
    ({ s with eventData := jsTrim (line.drop 5) }, frames)
  else if line = [] then
    if s.eventData ≠ [] then
      (initPState, frames ++ [⟨s.eventType, s.eventData⟩])
    else (s, frames)
  else if ([':'] : JStr).isPrefixOf line then
    (s, frames)
  else (s, frames)

/-- One iteration of the `while (true)` read loop on a freshly received
chunk: append to the buffer, split into lines, keep the trailing incomplete
line as the new buffer, and run the line loop with freshly initialised
pending variables (they are declared inside the `while` body). Returns the
new buffer and the frames emitted during this iteration. -/
def processChunk (buffer : JStr) (chunk : JStr) : JStr × List Frame :=
  let buf := buffer ++ chunk
  let lines := splitLines buf
  let newBuffer := lines.getLastD []
  let complete := lines.dropLast
  let r := complete.foldl processLine (initPState, [])
  (newBuffer, r.2)

/-- Feed a list of chunks through the read loop, accumulating frames. -/
def feedChunks (acc : JStr × List Frame) : List JStr → JStr × List Frame
  | [] => acc
  | c :: cs =>
    let r := processChunk acc.1 c
    feedChunks (r.1, acc.2 ++ r.2) cs

/-- All frames `handleStreamEvent` is invoked with when the transport
delivers `chunks` and then signals done (the leftover buffer is dropped). -/
def parseStream (chunks : List JStr) : List Frame :=
  (feedChunks ([], []) chunks).2

/-- One conversation turn, `{ role, content }`. -/
structure Turn where
  role : JStr
  content : JStr
deriving DecidableEq, Repr

/-- The fields of a successfully `JSON.parse`d event payload that
`handleStreamEvent` reads.  Absent/falsy string fields are modelled as the
empty string; the numeric `tool_count` / `max_tools` appear only inside a
template literal, so their string forms are kept. -/
structure EventJson where
  status : JStr
  response : JStr
  error : JStr
  displayName : JStr
  toolCount : JStr
  maxTools : JStr
deriving DecidableEq, Repr

/-- The JSON body posted to `/api/chat/stream`. -/
structure RequestBody where
  message : JStr
  conversationHistory : List Turn
  sessionId : JStr
  modelProvider : Option JStr
deriving DecidableEq, Repr

/-- The module-level and DOM state `sendMessage` reads and writes, together
with logs of its outward effects (requests issued, messages persisted,
status texts queued, errors shown, session-title updates). -/
structure MState where
  messageInputValue : JStr
  conversationHistory : List Turn
  requestInProgress : Bool
  sendButtonDisabled : Bool
  statusIndicatorActive : Bool
  statusUpdatesQueued : List JStr
  lastStatus : JStr
  errorsShown : List JStr
  savedMessages : List Turn
  requestsIssued : List RequestBody
  titleUpdates : Nat
deriving DecidableEq, Repr

/-- The browser environment: `navigator.onLine`, the session manager's
current session id (`none` covers a missing manager as well), the model
provider `<select>`, and whether `sessionManager.saveMessage` rejects
(its failure is caught and only skips follow-up work). -/
structure Env where
  onLine : Bool
  sessionId : Option JStr
  modelProvider : Option JStr
  saveFails : Bool
deriving DecidableEq, Repr

/-- Outcome of the `fetch` + stream read: either the fetch promise rejects,
or a response arrives with an `ok` flag and a status code, the body
delivers `chunks` in order, and afterwards the reader either signals done
(`readErr = none`) or throws. -/
inductive Transport where
  | reject (msg : JStr)
  | response (ok : Bool) (status : Nat) (chunks : List JStr) (readErr : Option JStr)
deriving DecidableEq, Repr

/-- `CONFIG.MAX_CONVERSATION_HISTORY` (config.js line 35). -/
def MAX_CONVERSATION_HISTORY : Nat := 10

/-- `handleStreamEvent(eventType, eventData, statusId)` (messaging.js lines
480–544).  `parse` is the `JSON.parse` oracle; a parse failure is caught
and leaves the state untouched. -/
def handleStreamEvent (parse : JStr → Option EventJson) (saveFails : Bool)
    (eventType eventData : JStr) (st : MState) : MState :=
  match parse eventData with
  | none => st
  | some data =>
    if eventType = "connected".data then
      { st with statusUpdatesQueued := st.statusUpdatesQueued ++ ["⚡ On it...".data] }
    else if eventType = "thinking".data then
      { st with statusUpdatesQueued := st.statusUpdatesQueued ++ [data.status],
                lastStatus := data.status }
    else if eventType = "tool".data then
      let toolStatus :=
        data.displayName ++ " (".data ++ data.toolCount ++ "/".data ++
          data.maxTools ++ ")".data
      { st with statusUpdatesQueued := st.statusUpdatesQueued ++ [toolStatus],
                lastStatus := data.displayName }
    else if eventType = "done".data then
      let st1 := { st with statusIndicatorActive := false, lastStatus := data.status }
      if data.response ≠ [] then
        let turn : Turn := ⟨"assistant".data, data.response⟩
        let st2 := { st1 with conversationHistory := st1.conversationHistory ++ [turn] }
        if saveFails then st2
        else { st2 with savedMessages := st2.savedMessages ++ [turn] }
      else st1
    else if eventType = "error".data then
      { st with statusIndicatorActive := false,
                errorsShown := st.errorsShown ++ ["Error: ".data ++ data.error] }
    else if eventType = "cancelled".data then
      { st with statusIndicatorActive := false }
    else st

/-- Dispatch a list of decoded frames to `handleStreamEvent` in order. -/
def dispatchFrames (parse : JStr → Option EventJson) (saveFails : Bool)
    (frames : List Frame) (st : MState) : MState :=
  frames.foldl (fun s f => handleStreamEvent parse saveFails f.eventType f.data s) st

/-- The `while (true)` read loop of `sendMessage` (messaging.js lines
642–677): each chunk is parsed with `processChunk` and the resulting frames
are dispatched. -/
def readLoop (parse : JStr → Option EventJson) (saveFails : Bool)
    (buffer : JStr) (chunks : List JStr) (st : MState) : MState :=
  match chunks with
  | [] => st
  | c :: cs =>
    let r := processChunk buffer c
    readLoop parse saveFails r.1 cs (dispatchFrames parse saveFails r.2 st)

/-- The user-friendly error classification in the `catch` block
(messaging.js lines 683–691). -/
def errorMessageFor (msg : JStr) : JStr :=
  "Failed to get response. ".data ++
    (if "timeout".data <:+: msg then
       "Server is taking too long to respond.".data
     else if "Failed to fetch".data <:+: msg ∨ "Load failed".data <:+: msg then
       "Cannot connect to server.".data
     else msg)

/-- The `finally` block (messaging.js lines 699–703). -/
def sendFinally (st : MState) : MState :=
  { st with sendButtonDisabled := false, requestInProgress := false,
            lastStatus := "Ready".data }

/-- The `catch` block (messaging.js lines 679–698) followed by `finally`:
remove the status indicator, show the classified error, and pop the last
history entry if it is still a user turn. -/
def sendCatch (errMsg : JStr) (st : MState) : MState :=
  let st1 := { st with statusIndicatorActive := false }
  let st2 := { st1 with errorsShown := st1.errorsShown ++ [errorMessageFor errMsg] }
  let st3 :=
    if st2.conversationHistory ≠ [] ∧
        (st2.conversationHistory.getLastD ⟨[], []⟩).role = "user".data then
      { st2 with conversationHistory := st2.conversationHistory.dropLast }
    else st2
  sendFinally st3

/-- The synchronous prefix of `sendMessage` after its guards (messaging.js
lines 570–606): set the in-flight flag, optimistically append the user
turn, persist it (persistence failure is caught; on the first turn a
session-title update is issued), clear the input, disable the send button,
and show the status indicator. -/
def sendPrepare (env : Env) (message : JStr) (st : MState) : MState :=
  let st1 := { st with requestInProgress := true }
  let userTurn : Turn := ⟨"user".data, message⟩
  let st2 := { st1 with conversationHistory := st1.conversationHistory ++ [userTurn] }
  let st3 :=
    if env.saveFails then st2
    else
      let sta := { st2 with savedMessages := st2.savedMessages ++ [userTurn] }
      if sta.conversationHistory.length = 1 then
        { sta with titleUpdates := sta.titleUpdates + 1 }
      else sta
  let st4 := { st3 with messageInputValue := [] }
  let st5 := { st4 with sendButtonDisabled := true, lastStatus := "Generating...".data }
  { st5 with statusIndicatorActive := true }

/-- `sendMessage()` (messaging.js lines 547–704), parameterised by the
`JSON.parse` oracle, the environment, and the transport outcome. -/
def sendMessage (parse : JStr → Option EventJson) (env : Env) (tr : Transport)
    (st : MState) : MState :=
  let message := jsTrim st.messageInputValue
  if message = [] then st
  else if st.requestInProgress then st
  else if env.onLine = false then
    { st with errorsShown :=
        st.errorsShown ++ ["No internet connection. Please check your network.".data] }
  else
    match env.sessionId with
    | none =>
      { st with errorsShown :=
          st.errorsShown ++ ["No active session. Please reload the page.".data] }
    | some sid =>
      let st6 := sendPrepare env message st
      let recentHistory :=
        st6.conversationHistory.drop
          (st6.conversationHistory.length - MAX_CONVERSATION_HISTORY)
      let req : RequestBody := ⟨message, recentHistory, sid, env.modelProvider⟩
      match tr with
      | .reject errMsg =>
        sendCatch errMsg { st6 with requestsIssued := st6.requestsIssued ++ [req] }
      | .response ok status chunks readErr =>
        let st7 := { st6 with requestsIssued := st6.requestsIssued ++ [req] }
        if ok = false then
          sendCatch ("HTTP error! status: ".data ++ (Nat.repr status).data) st7
        else
          let st8 := readLoop parse env.saveFails [] chunks st7
          match readErr with
          | some e => sendCatch e st8
          | none => sendFinally st8

/-! ## Status-update queue (messaging.js lines 445–477) -/

/-- `minDisplayTime` inside `processStatusUpdate`: 1500 ms. -/
def minDisplayTime : Nat := 1500

/-- The moment `processStatusUpdate` applies an update when it is entered
at time `now` with `lastStatusUpdateTime = last`: if less than
`minDisplayTime` elapsed it sleeps for the remainder first. -/
def statusApplyTime (now last : Nat) : Nat :=
  if now - last < minDisplayTime then now + (minDisplayTime - (now - last)) else now

/-- The drain loop of `queueStatusUpdate`: the queue is drained FIFO;
each entry carries the extra wall-clock time `d` that elapses before the
drain loop reads the clock for it.  Returns the `(applyTime, text)` pairs
in application order; `lastStatusUpdateTime` is set to the apply time. -/
def drainStatusQueue (last clock : Nat) : List (Nat × JStr) → List (Nat × JStr)
  | [] => []
  | (d, txt) :: rest =>
    let now := clock + d
    let t := statusApplyTime now last
    (t, txt) :: drainStatusQueue t t rest

/-! ## Auxiliary predicates for the claims -/

/-- A heartbeat line: it begins with `:` (messaging.js line 672). -/
def isHeartbeat (l : JStr) : Bool := ([':'] : JStr).isPrefixOf l

/-- `InsertHeartbeats ls ls'` holds when `ls'` is obtained from `ls` by
inserting `:`-prefixed heartbeat lines at arbitrary positions. -/
inductive InsertHeartbeats : List JStr → List JStr → Prop
  | nil : InsertHeartbeats [] []
  | keep {l l' : List JStr} (a : JStr) :
      InsertHeartbeats l l' → InsertHeartbeats (a :: l) (a :: l')
  | ins {l l' : List JStr} {a : JStr} (ha : isHeartbeat a = true) :
      InsertHeartbeats l l' → InsertHeartbeats l (a :: l')

/-- A transport-level failure: the fetch rejected, the HTTP status was not
ok, or the read loop threw. -/
def transportFails : Transport → Bool
  | .reject _ => true
  | .response ok _ _ readErr => !ok || readErr.isSome

/-- The frames dispatched before a transport failure surfaces: none when
the fetch rejects or the status is not ok; all frames decoded from the
delivered chunks when the reader throws afterwards. -/
def framesBeforeFailure : Transport → List Frame
  | .reject _ => []
  | .response ok _ chunks _ => if ok then parseStream chunks else []

/-- Terminal protocol frames: `done`, `error`, `cancelled`. -/
def isTerminalEvent (f : Frame) : Bool :=
  f.eventType == "done".data || f.eventType == "error".data ||
    f.eventType == "cancelled".data

/-! ## Concrete sample values used to instantiate the theorems -/

/-- A `JSON.parse` oracle that always fails. -/
def sampleParse : JStr → Option EventJson := fun _ => none

/-- A `JSON.parse` oracle returning a fixed parsed object. -/
def sampleParseErr : JStr → Option EventJson :=
  fun _ => some ⟨[], [], "boom".data, [], [], []⟩

/-- A benign environment: online, with a session, default provider. -/
def sampleEnv : Env := ⟨true, some "s1".data, none, false⟩

/-- An idle client state with the draft message `"hi"`. -/
def sampleState : MState := ⟨"hi".data, [], false, false, false, [], [], [], [], [], 0⟩

/-- `sampleState` with a request already in flight. -/
def busyState : MState := { sampleState with requestInProgress := true }

/-- A two-line block: one `data:` line and its blank-line terminator. -/
def sampleLines : List JStr := ["data: x".data, []]

/-- `sampleLines` with heartbeat lines inserted around the `data:` line. -/
def sampleLinesHb : List JStr :=
  [": hb".data, "data: x".data, ": hb2".data, []]

/-! ## Helper lemmas -/

lemma isPrefixOf_nil_left (l : JStr) : List.isPrefixOf [] l = true := by
  cases l <;> rfl

/-- A heartbeat line leaves the line-loop state untouched. -/
lemma processLine_heartbeat (s : PState) (fs : List Frame) (l : JStr)
    (h : isHeartbeat l = true) : processLine (s, fs) l = (s, fs) := by
  cases l with
  | nil => simp [isHeartbeat, List.isPrefixOf] at h
  | cons c t =>
    have hc : c = ':' := by
      simp [isHeartbeat, List.isPrefixOf, isPrefixOf_nil_left] at h
      exact h.symm
    subst hc
    have h1 : ("event:".data).isPrefixOf (':' :: t) = false := rfl
    have h2 : ("data:".data).isPrefixOf (':' :: t) = false := rfl
    simp [processLine, h1, h2]

/-- Behaviour of `processLine` on a `data:`-prefixed line. -/
lemma processLine_data (s : PState) (fs : List Frame) (rest : JStr) :
    processLine (s, fs) ("data:".data ++ rest) =
      ({ s with eventData := jsTrim rest }, fs) := by
  have h1 : ("event:".data).isPrefixOf ("data:".data ++ rest) = false := rfl
  have h2 : ("data:".data).isPrefixOf ("data:".data ++ rest) = true := by
    rw [List.isPrefixOf_iff_prefix]; exact List.prefix_append _ _
  have h3 : List.drop 5 ("data:".data ++ rest) = rest := List.drop_left' rfl
  simp [processLine, h1, h2, h3]

/-- Behaviour of `processLine` on the empty (block-terminator) line. -/
lemma processLine_blank (s : PState) (fs : List Frame) :
    processLine (s, fs) [] =
      (if s.eventData ≠ [] then (initPState, fs ++ [⟨s.eventType, s.eventData⟩])
       else (s, fs)) := by
  by_cases h : s.eventData = [] <;> simp [processLine, h]

lemma le_statusApplyTime {last now : Nat} (h : last ≤ now) :
    last + minDisplayTime ≤ statusApplyTime now last := by
  unfold statusApplyTime minDisplayTime
  split <;> omega

lemma drainStatusQueue_snd (items : List (Nat × JStr)) : ∀ last clock,
    (drainStatusQueue last clock items).map Prod.snd = items.map Prod.snd := by
  induction items with
  | nil => intro last clock; rfl
  | cons p rest ih =>
    intro last clock
    obtain ⟨d, txt⟩ := p
    simp [drainStatusQueue, ih]

lemma drainStatusQueue_chain (items : List (Nat × JStr)) : ∀ last clock,
    last ≤ clock →
    List.Chain' (fun a b => a + minDisplayTime ≤ b)
      (last :: (drainStatusQueue last clock items).map Prod.fst) := by
  induction items with
  | nil => intro last clock _; simp [drainStatusQueue]
  | cons p rest ih =>
    intro last clock h
    obtain ⟨d, txt⟩ := p
    simp only [drainStatusQueue, List.map_cons, List.chain'_cons]
    constructor
    · exact le_statusApplyTime (le_trans h (Nat.le_add_right _ _))
    · exact ih _ _ le_rfl

/-- The full history effect of `handleStreamEvent`: an assistant turn is
appended exactly when the payload parses and the event is `done` with a
non-empty `response`. -/
lemma handleStreamEvent_history (parse : JStr → Option EventJson) (sf : Bool)
    (et d : JStr) (st : MState) :
    (handleStreamEvent parse sf et d st).conversationHistory =
      (match parse d with
       | none => st.conversationHistory
       | some j =>
         if et = "done".data ∧ j.response ≠ [] then
           st.conversationHistory ++ [⟨"assistant".data, j.response⟩]
         else st.conversationHistory) := by
  unfold handleStreamEvent
  cases hp : parse d with
  | none => rfl
  | some j =>
    by_cases h1 : et = "connected".data
    · subst h1
      have : ¬("connected".data = "done".data) := by decide
      simp [this]
    · by_cases h2 : et = "thinking".data
      · subst h2
        have : ¬("thinking".data = "done".data) := by decide
        simp [h1, this]
      · by_cases h3 : et = "tool".data
        · subst h3
          have : ¬("tool".data = "done".data) := by decide
          simp [h1, h2, this]
        · by_cases h4 : et = "done".data
          · subst h4
            by_cases hr : j.response = []
            · simp [h1, h2, h3, hr]
            · simp [h1, h2, h3, hr]
              split <;> rfl
          · by_cases h5 : et = "error".data
            · simp [h1, h2, h3, h4, h5]
            · by_cases h6 : et = "cancelled".data
              · simp [h1, h2, h3, h4, h5, h6]
              · simp [h1, h2, h3, h4, h5, h6]

/-- Events other than `done` never touch the transcript. -/
lemma handleStreamEvent_history_ne_done (parse : JStr → Option EventJson)
    (sf : Bool) (et d : JStr) (st : MState) (h : et ≠ "done".data) :
    (handleStreamEvent parse sf et d st).conversationHistory =
      st.conversationHistory := by
  rw [handleStreamEvent_history]
  cases parse d with
  | none => rfl
  | some j => simp [h]

/-- `handleStreamEvent` never touches the in-flight flag, the send button,
or the list of issued requests. -/
lemma handleStreamEvent_ctrl (parse : JStr → Option EventJson) (sf : Bool)
    (et d : JStr) (st : MState) :
    (handleStreamEvent parse sf et d st).requestInProgress = st.requestInProgress ∧
    (handleStreamEvent parse sf et d st).sendButtonDisabled = st.sendButtonDisabled ∧
    (handleStreamEvent parse sf et d st).requestsIssued = st.requestsIssued := by
  unfold handleStreamEvent
  cases parse d with
  | none => exact ⟨rfl, rfl, rfl⟩
  | some j =>
    dsimp only
    split_ifs <;> exact ⟨rfl, rfl, rfl⟩

lemma dispatchFrames_ctrl (parse : JStr → Option EventJson) (sf : Bool)
    (frames : List Frame) : ∀ st : MState,
    (dispatchFrames parse sf frames st).requestInProgress = st.requestInProgress ∧
    (dispatchFrames parse sf frames st).sendButtonDisabled = st.sendButtonDisabled ∧
    (dispatchFrames parse sf frames st).requestsIssued = st.requestsIssued := by
  induction frames with
  | nil => intro st; exact ⟨rfl, rfl, rfl⟩
  | cons f fr ih =>
    intro st
    obtain ⟨h1, h2, h3⟩ := handleStreamEvent_ctrl parse sf f.eventType f.data st
    obtain ⟨g1, g2, g3⟩ := ih (handleStreamEvent parse sf f.eventType f.data st)
    exact ⟨g1.trans h1, g2.trans h2, g3.trans h3⟩

lemma dispatchFrames_history (parse : JStr → Option EventJson) (sf : Bool)
    (frames : List Frame) : ∀ st : MState,
    (∀ f ∈ frames, f.eventType ≠ "done".data) →
    (dispatchFrames parse sf frames st).conversationHistory =
      st.conversationHistory := by
  induction frames with
  | nil => intro st _; rfl
  | cons f fr ih =>
    intro st h
    have hf := handleStreamEvent_history_ne_done parse sf f.eventType f.data st
      (h f (List.mem_cons_self f fr))
    have := ih (handleStreamEvent parse sf f.eventType f.data st)
      (fun g hg => h g (List.mem_cons_of_mem f hg))
    exact this.trans hf

lemma feedChunks_acc (cs : List JStr) : ∀ (b : JStr) (acc : List Frame),
    (feedChunks (b, acc) cs).2 = acc ++ (feedChunks (b, []) cs).2 := by
  induction cs with
  | nil => intro b acc; simp [feedChunks]
  | cons c cs ih =>
    intro b acc
    rcases hpc : processChunk b c with ⟨b2, fr⟩
    simp only [feedChunks, hpc, List.nil_append]
    rw [ih b2 (acc ++ fr), ih b2 fr, List.append_assoc]

/-- The read loop is the frame parser followed by frame dispatch. -/
lemma readLoop_eq_dispatch (parse : JStr → Option EventJson) (sf : Bool)
    (cs : List JStr) : ∀ (b : JStr) (st : MState),
    readLoop parse sf b cs st =
      dispatchFrames parse sf (feedChunks (b, []) cs).2 st := by
  induction cs with
  | nil => intro b st; rfl
  | cons c cs ih =>
    intro b st
    rcases hpc : processChunk b c with ⟨b2, fr⟩
    simp only [readLoop, feedChunks, hpc, List.nil_append]
    rw [ih, feedChunks_acc cs b2 fr]
    simp [dispatchFrames, List.foldl_append]

/-- Field effects of the synchronous preparation phase. -/
lemma sendPrepare_spec (env : Env) (message : JStr) (st : MState) :
    (sendPrepare env message st).conversationHistory =
      st.conversationHistory ++ [⟨"user".data, message⟩] ∧
    (sendPrepare env message st).requestInProgress = true ∧
    (sendPrepare env message st).sendButtonDisabled = true ∧
    (sendPrepare env message st).statusIndicatorActive = true ∧
    (sendPrepare env message st).requestsIssued = st.requestsIssued := by
  unfold sendPrepare
  dsimp only
  split_ifs <;> exact ⟨rfl, rfl, rfl, rfl, rfl⟩

/-- The `catch` path pops the trailing user turn and re-enables sending. -/
lemma sendCatch_spec (e : JStr) (st : MState)
    (hne : st.conversationHistory ≠ [])
    (hl : (st.conversationHistory.getLastD ⟨[], []⟩).role = "user".data) :
    (sendCatch e st).conversationHistory = st.conversationHistory.dropLast ∧
    (sendCatch e st).requestInProgress = false ∧
    (sendCatch e st).sendButtonDisabled = false ∧
    (sendCatch e st).statusIndicatorActive = false := by
  unfold sendCatch sendFinally
  dsimp only
  rw [if_pos (⟨hne, hl⟩ : _ ∧ _)]
  exact ⟨rfl, rfl, rfl, rfl⟩

lemma sendCatch_requestsIssued (e : JStr) (st : MState) :
    (sendCatch e st).requestsIssued = st.requestsIssued := by
  unfold sendCatch sendFinally
  dsimp only
  split_ifs <;> rfl

/-- Reduction of `sendMessage` once every guard passes. -/
lemma sendMessage_guards (parse : JStr → Option EventJson) (env : Env)
    (tr : Transport) (st : MState) (sid : JStr)
    (hmsg : jsTrim st.messageInputValue ≠ [])
    (hflag : st.requestInProgress = false)
    (hon : env.onLine = true)
    (hsid : env.sessionId = some sid) :
    sendMessage parse env tr st =
      (let st6 := sendPrepare env (jsTrim st.messageInputValue) st
       let recentHistory :=
         st6.conversationHistory.drop
           (st6.conversationHistory.length - MAX_CONVERSATION_HISTORY)
       let req : RequestBody :=
         ⟨jsTrim st.messageInputValue, recentHistory, sid, env.modelProvider⟩
       match tr with
       | .reject errMsg =>
         sendCatch errMsg { st6 with requestsIssued := st6.requestsIssued ++ [req] }
       | .response ok status chunks readErr =>
         let st7 := { st6 with requestsIssued := st6.requestsIssued ++ [req] }
         if ok = false then
           sendCatch ("HTTP error! status: ".data ++ (Nat.repr status).data) st7
         else
           let st8 := readLoop parse env.saveFails [] chunks st7
           match readErr with
           | some e => sendCatch e st8
           | none => sendFinally st8) := by
  unfold sendMessage
  rw [if_neg hmsg, if_neg (by simp [hflag]), if_neg (by simp [hon]), hsid]

/-! ## Claim theorems -/

/-- C1: chunk-boundary invariance FAILS on the code. The stream
`"event: thinking\ndata: {\"status\":\"x\"}\n\n"` parsed as a single chunk
yields one frame tagged `thinking`, but delivered as two chunks split in
the middle of the `data:` line it yields one frame tagged `message`: the
pending `eventType`/`eventData` variables are re-initialised on every
chunk because their declarations sit inside the `while` loop
(messaging.js lines 657–658), so the event tag decoded from the first
chunk is forgotten. -/
theorem c1_chunk_split_divergence :
    ("event: thinking\ndata: \x7b\"st".data ++ "atus\":\"x\"\x7d\n\n".data : JStr) =
      "event: thinking\ndata: \x7b\"status\":\"x\"\x7d\n\n".data ∧
    parseStream ["event: thinking\ndata: \x7b\"status\":\"x\"\x7d\n\n".data] =
      [⟨"thinking".data, "\x7b\"status\":\"x\"\x7d".data⟩] ∧
    parseStream ["event: thinking\ndata: \x7b\"st".data, "atus\":\"x\"\x7d\n\n".data] =
      [⟨"message".data, "\x7b\"status\":\"x\"\x7d".data⟩] ∧
    parseStream ["event: thinking\ndata: \x7b\"st".data, "atus\":\"x\"\x7d\n\n".data] ≠
      parseStream ["event: thinking\ndata: \x7b\"status\":\"x\"\x7d\n\n".data] :=
  ⟨by decide, by decide, by decide, by decide⟩

/-- C2: single-flight. If `requestInProgress` is already `true`,
`sendMessage` is a complete no-op: the state (history, input, flags,
effect logs, issued requests) is returned unchanged, for every
environment, transport outcome and parse oracle — the flag is checked
before any suspension point, so no oracle can influence the result. -/
theorem c2_single_flight (parse : JStr → Option EventJson) (env : Env)
    (tr : Transport) (st : MState) (h : st.requestInProgress = true) :
    sendMessage parse env tr st = st := by
  by_cases hm : jsTrim st.messageInputValue = [] <;> simp [sendMessage, hm, h]

theorem c2_single_flight_witness :
    sendMessage sampleParse sampleEnv (.reject []) busyState = busyState :=
  c2_single_flight sampleParse sampleEnv (.reject []) busyState rfl

/-- C4: block semantics of one processed line sequence. A `data:` line
overwrites the pending payload with the trimmed remainder of the line,
regardless of the previous pending payload (no concatenation); an empty
line with a non-empty pending payload emits exactly one frame carrying
the pending event type and payload and resets the pending state to
(`"message"`, empty); an empty line with an empty pending payload emits
nothing and changes nothing. -/
theorem c4_block_semantics :
    (∀ (s : PState) (fs : List Frame) (rest : JStr),
      processLine (s, fs) ("data:".data ++ rest) =
        ({ s with eventData := jsTrim rest }, fs)) ∧
    (∀ (s : PState) (fs : List Frame), s.eventData ≠ [] →
      processLine (s, fs) [] =
        (⟨"message".data, []⟩, fs ++ [⟨s.eventType, s.eventData⟩])) ∧
    (∀ (s : PState) (fs : List Frame), s.eventData = [] →
      processLine (s, fs) [] = (s, fs)) := by
  refine ⟨processLine_data, ?_, ?_⟩ <;>
    intro s fs h <;> simp [processLine_blank, initPState, h]

theorem c4_block_semantics_witness :
    processLine (⟨"thinking".data, "x".data⟩, []) [] =
      (⟨"message".data, []⟩, [⟨"thinking".data, "x".data⟩]) :=
  c4_block_semantics.2.1 ⟨"thinking".data, "x".data⟩ [] (by decide)

/-- C5: status pacing. Draining the status queue applies every enqueued
update exactly once and in FIFO order (the applied texts are the enqueued
texts in order), and the apply times — starting from the previous
`lastStatusUpdateTime` — are spaced at least `minDisplayTime` (1500 ms)
apart, for every arrival pattern with a monotone clock. -/
theorem c5_status_pacing (last clock : Nat) (items : List (Nat × JStr))
    (h : last ≤ clock) :
    (drainStatusQueue last clock items).map Prod.snd = items.map Prod.snd ∧
    List.Chain' (fun a b => a + minDisplayTime ≤ b)
      (last :: (drainStatusQueue last clock items).map Prod.fst) :=
  ⟨drainStatusQueue_snd items last clock, drainStatusQueue_chain items last clock h⟩

theorem c5_status_pacing_witness :
    (drainStatusQueue 100 5000 [(0, "a".data), (7, "b".data)]).map Prod.snd =
      [(0, "a".data), (7, "b".data)].map Prod.snd ∧
    List.Chain' (fun a b => a + minDisplayTime ≤ b)
      (100 :: (drainStatusQueue 100 5000 [(0, "a".data), (7, "b".data)]).map Prod.fst) :=
  c5_status_pacing 100 5000 [(0, "a".data), (7, "b".data)] (by decide)

/-- C7: heartbeat transparency. Inserting any number of `:`-prefixed
lines at any positions into a line sequence leaves the line-loop result —
parser state and emitted frame sequence — identical, so heartbeat lines
never produce a frame and never alter the frames otherwise produced. -/
theorem c7_heartbeat_transparency (ls ls' : List JStr)
    (hins : InsertHeartbeats ls ls') (acc : PState × List Frame) :
    ls'.foldl processLine acc = ls.foldl processLine acc := by
  induction hins generalizing acc with
  | nil => rfl
  | keep a _ ih => simp only [List.foldl_cons, ih]
  | ins ha _ ih =>
    obtain ⟨s, fs⟩ := acc
    simp only [List.foldl_cons, processLine_heartbeat _ _ _ ha, ih]

theorem c7_heartbeat_transparency_witness :
    sampleLinesHb.foldl processLine (initPState, []) =
      sampleLines.foldl processLine (initPState, []) :=
  c7_heartbeat_transparency sampleLines sampleLinesHb
    (.ins (by decide) (.keep _ (.ins (by decide) (.keep _ .nil)))) (initPState, [])

/-- C9: an empty line with no pending payload does not reset the pending
event type (it changes nothing at all), so an `event:` line from a
data-less block tags the next frame emitted within the same chunk: the
single chunk `"event: thinking\n\ndata: {}\n\n"` yields exactly one frame
with event type `thinking`. -/
theorem c9_blank_keeps_event_type :
    (∀ (s : PState) (fs : List Frame), s.eventData = [] →
      processLine (s, fs) [] = (s, fs)) ∧
    parseStream ["event: thinking\n\ndata: \x7b\x7d\n\n".data] =
      [⟨"thinking".data, "\x7b\x7d".data⟩] :=
  ⟨fun s fs h => by simp [processLine_blank, h], by decide⟩

theorem c9_blank_keeps_event_type_witness :
    processLine (⟨"thinking".data, []⟩, []) [] = (⟨"thinking".data, []⟩, []) :=
  c9_blank_keeps_event_type.1 ⟨"thinking".data, []⟩ [] rfl

/-- C10: a `data:` line whose remainder trims to the empty string leaves
the pending payload empty, so the following empty line emits no frame;
in particular the single chunk `"event: done\ndata:\n\n"` invokes the
event handler zero times. -/
theorem c10_empty_data_payload :
    (∀ (s : PState) (fs : List Frame) (rest : JStr), jsTrim rest = [] →
      List.foldl processLine (s, fs) [("data:".data ++ rest), []] =
        ({ s with eventData := [] }, fs)) ∧
    parseStream ["event: done\ndata:\n\n".data] = [] := by
  constructor
  · intro s fs rest h
    show processLine (processLine (s, fs) ("data:".data ++ rest)) [] =
      ({ s with eventData := [] }, fs)
    rw [processLine_data, h]
    simp [processLine_blank]
  · decide

theorem c10_empty_data_payload_witness :
    List.foldl processLine (⟨"done".data, []⟩, []) [("data:".data ++ "  ".data), []] =
      (⟨"done".data, []⟩, []) :=
  c10_empty_data_payload.1 ⟨"done".data, []⟩ [] "  ".data (by decide)

/-- C6: terminal-event transcript effects. The transcript gains an
assistant turn exactly when a `done` event with a parseable payload and a
non-empty `response` is dispatched (first conjunct characterises the
history for every event); a dispatched `error` event removes the status
indicator, leaves the transcript unchanged and surfaces the message as a
user-visible error; a dispatched `cancelled` event removes the status
indicator and leaves the transcript unchanged. -/
theorem c6_terminal_event_effects (parse : JStr → Option EventJson) (sf : Bool)
    (et d : JStr) (st : MState) :
    ((handleStreamEvent parse sf et d st).conversationHistory =
      (match parse d with
       | none => st.conversationHistory
       | some j =>
         if et = "done".data ∧ j.response ≠ [] then
           st.conversationHistory ++ [⟨"assistant".data, j.response⟩]
         else st.conversationHistory)) ∧
    (∀ j, parse d = some j → et = "error".data →
      (handleStreamEvent parse sf et d st).statusIndicatorActive = false ∧
      (handleStreamEvent parse sf et d st).conversationHistory =
        st.conversationHistory ∧
      (handleStreamEvent parse sf et d st).errorsShown =
        st.errorsShown ++ ["Error: ".data ++ j.error]) ∧
    (∀ j, parse d = some j → et = "cancelled".data →
      (handleStreamEvent parse sf et d st).statusIndicatorActive = false ∧
      (handleStreamEvent parse sf et d st).conversationHistory =
        st.conversationHistory) := by
  refine ⟨handleStreamEvent_history parse sf et d st, ?_, ?_⟩
  · intro j hp het
    subst het
    simp [handleStreamEvent, hp]
  · intro j hp het
    subst het
    simp [handleStreamEvent, hp]

theorem c6_terminal_event_effects_witness :
    (handleStreamEvent sampleParseErr false ("error".data) [] sampleState).statusIndicatorActive
        = false ∧
    (handleStreamEvent sampleParseErr false ("error".data) [] sampleState).conversationHistory
        = sampleState.conversationHistory ∧
    (handleStreamEvent sampleParseErr false ("error".data) [] sampleState).errorsShown
        = sampleState.errorsShown ++ ["Error: ".data ++ "boom".data] :=
  (c6_terminal_event_effects sampleParseErr false ("error".data) [] sampleState).2.1
    ⟨[], [], "boom".data, [], [], []⟩ rfl rfl

/-- C3: rollback on transport failure. When a send passes its guards and
the transport then fails (fetch rejection, non-ok HTTP status, or a read
loop that throws) with no terminal frame dispatched before the failure,
the optimistically appended user turn is popped again, so the final
transcript equals the transcript before the send; afterwards the
in-flight flag is cleared and the send button re-enabled. -/
theorem c3_transport_failure_rollback (parse : JStr → Option EventJson)
    (env : Env) (tr : Transport) (st : MState) (sid : JStr)
    (hmsg : jsTrim st.messageInputValue ≠ [])
    (hflag : st.requestInProgress = false)
    (hon : env.onLine = true)
    (hsid : env.sessionId = some sid)
    (hfail : transportFails tr = true)
    (hnoterm : ∀ f ∈ framesBeforeFailure tr, isTerminalEvent f = false) :
    (sendMessage parse env tr st).conversationHistory = st.conversationHistory ∧
    (sendMessage parse env tr st).requestInProgress = false ∧
    (sendMessage parse env tr st).sendButtonDisabled = false := by
  rw [sendMessage_guards parse env tr st sid hmsg hflag hon hsid]
  obtain ⟨hP, -, -, -, -⟩ := sendPrepare_spec env (jsTrim st.messageInputValue) st
  have key : ∀ (e : JStr) (Q : MState),
      Q.conversationHistory =
        st.conversationHistory ++ [⟨"user".data, jsTrim st.messageInputValue⟩] →
      (sendCatch e Q).conversationHistory = st.conversationHistory ∧
      (sendCatch e Q).requestInProgress = false ∧
      (sendCatch e Q).sendButtonDisabled = false := by
    intro e Q hQ
    have hne : Q.conversationHistory ≠ [] := by rw [hQ]; simp
    have hl : (Q.conversationHistory.getLastD ⟨[], []⟩).role = "user".data := by
      rw [hQ, List.getLastD_concat]
    obtain ⟨h1, h2, h3, -⟩ := sendCatch_spec e Q hne hl
    exact ⟨by rw [h1, hQ, List.dropLast_concat], h2, h3⟩
  cases tr with
  | reject m =>
    exact key m _ hP
  | response ok status chunks readErr =>
    dsimp only
    by_cases hok : ok = false
    · rw [if_pos hok]
      exact key _ _ hP
    · rw [if_neg hok]
      have hok' : ok = true := by revert hok; cases ok <;> simp
      subst hok'
      cases readErr with
      | none => simp [transportFails] at hfail
      | some e =>
        have hfr : ∀ f ∈ parseStream chunks, f.eventType ≠ "done".data := by
          intro f hf
          have ht := hnoterm f hf
          simp [isTerminalEvent] at ht
          exact ht.1.1
        have hhist : ∀ Q : MState,
            Q.conversationHistory =
              st.conversationHistory ++ [⟨"user".data, jsTrim st.messageInputValue⟩] →
            (readLoop parse env.saveFails [] chunks Q).conversationHistory =
              st.conversationHistory ++
                [⟨"user".data, jsTrim st.messageInputValue⟩] := by
          intro Q hQ
          rw [readLoop_eq_dispatch,
            dispatchFrames_history parse env.saveFails ((feedChunks ([], []) chunks).2) Q
              (fun f hf => hfr f hf), hQ]
        exact key e _ (hhist _ hP)

theorem c3_transport_failure_rollback_witness :
    (sendMessage sampleParse sampleEnv
        (.reject "Failed to fetch".data) sampleState).conversationHistory =
      sampleState.conversationHistory ∧
    (sendMessage sampleParse sampleEnv
        (.reject "Failed to fetch".data) sampleState).requestInProgress = false ∧
    (sendMessage sampleParse sampleEnv
        (.reject "Failed to fetch".data) sampleState).sendButtonDisabled = false :=
  c3_transport_failure_rollback sampleParse sampleEnv
    (.reject "Failed to fetch".data) sampleState ("s1".data)
    (by decide) rfl rfl rfl rfl
    (by intro f hf; simp [framesBeforeFailure] at hf)

/-- C8: sliding history window. Whenever a send passes its guards it
issues exactly one request whose `conversation_history` is the window of
the most recent `min(length, 10)` turns of the post-append history
(oldest-first): the window is a suffix of the full history with length
`min(length, MAX_CONVERSATION_HISTORY)` whose last element is the
just-appended user turn; on a successful empty stream the full history —
including turns outside the window — is retained client-side. -/
theorem c8_sliding_window (parse : JStr → Option EventJson) (env : Env)
    (tr : Transport) (st : MState) (sid : JStr)
    (hmsg : jsTrim st.messageInputValue ≠ [])
    (hflag : st.requestInProgress = false)
    (hon : env.onLine = true)
    (hsid : env.sessionId = some sid) :
    ∀ (message : JStr) (fullHistory window : List Turn),
      message = jsTrim st.messageInputValue →
      fullHistory = st.conversationHistory ++ [⟨"user".data, message⟩] →
      window = fullHistory.drop (fullHistory.length - MAX_CONVERSATION_HISTORY) →
      (sendMessage parse env tr st).requestsIssued =
        st.requestsIssued ++ [⟨message, window, sid, env.modelProvider⟩] ∧
      window.length = min fullHistory.length MAX_CONVERSATION_HISTORY ∧
      window <:+ fullHistory ∧
      window.getLast? = some ⟨"user".data, message⟩ ∧
      (∀ status2, tr = .response true status2 [] none →
        (sendMessage parse env tr st).conversationHistory = fullHistory) := by
  intro message fullHistory window hm hf hw
  subst hm
  subst hf
  subst hw
  rw [sendMessage_guards parse env tr st sid hmsg hflag hon hsid]
  obtain ⟨hP, -, -, -, hR⟩ := sendPrepare_spec env (jsTrim st.messageInputValue) st
  refine ⟨?_, ?_, List.drop_suffix _ _, ?_, ?_⟩
  · -- requestsIssued
    have hreqhist :
        (sendPrepare env (jsTrim st.messageInputValue) st).conversationHistory.drop
            ((sendPrepare env (jsTrim st.messageInputValue) st).conversationHistory.length -
              MAX_CONVERSATION_HISTORY) =
          (st.conversationHistory ++
              [(⟨"user".data, jsTrim st.messageInputValue⟩ : Turn)]).drop
            ((st.conversationHistory ++
                [(⟨"user".data, jsTrim st.messageInputValue⟩ : Turn)]).length -
              MAX_CONVERSATION_HISTORY) := by rw [hP]
    cases tr with
    | reject m =>
      rw [sendCatch_requestsIssued]
      dsimp only
      rw [hreqhist, hR]
    | response ok status chunks readErr =>
      dsimp only
      by_cases hok : ok = false
      · rw [if_pos hok, sendCatch_requestsIssued]
        dsimp only
        rw [hreqhist, hR]
      · rw [if_neg hok]
        have hloop : ∀ Q : MState,
            (readLoop parse env.saveFails [] chunks Q).requestsIssued =
              Q.requestsIssued := by
          intro Q
          rw [readLoop_eq_dispatch]
          exact (dispatchFrames_ctrl parse env.saveFails _ Q).2.2
        cases readErr with
        | none =>
          show (sendFinally _).requestsIssued = _
          rw [show ∀ R : MState, (sendFinally R).requestsIssued = R.requestsIssued
              from fun R => rfl]
          rw [hloop]
          dsimp only
          rw [hreqhist, hR]
        | some e =>
          show (sendCatch e _).requestsIssued = _
          rw [sendCatch_requestsIssued, hloop]
          dsimp only
          rw [hreqhist, hR]
  · -- window length
    rw [List.length_drop]
    unfold MAX_CONVERSATION_HISTORY
    omega
  · -- last element of the window is the just-appended user turn
    have hk : (st.conversationHistory ++
          [(⟨"user".data, jsTrim st.messageInputValue⟩ : Turn)]).length -
        MAX_CONVERSATION_HISTORY ≤ st.conversationHistory.length := by
      simp [MAX_CONVERSATION_HISTORY]
    rw [List.drop_append_of_le_length hk, List.getLast?_concat]
  · -- turns stay client-side on a successful empty stream
    intro status2 htr
    subst htr
    dsimp only
    rw [if_neg (by simp)]
    show (sendFinally _).conversationHistory = _
    rw [show ∀ R : MState, (sendFinally R).conversationHistory = R.conversationHistory
        from fun R => rfl]
    show (readLoop parse env.saveFails [] [] _).conversationHistory = _
    exact hP

theorem c8_sliding_window_witness :
    (sendMessage sampleParse sampleEnv (.response true 200 [] none)
        sampleState).requestsIssued =
      sampleState.requestsIssued ++
        [⟨"hi".data, [⟨"user".data, "hi".data⟩], "s1".data, sampleEnv.modelProvider⟩] ∧
    (sendMessage sampleParse sampleEnv (.response true 200 [] none)
        sampleState).conversationHistory = [⟨"user".data, "hi".data⟩] := by
  obtain ⟨h1, -, -, -, h5⟩ :=
    c8_sliding_window sampleParse sampleEnv (.response true 200 [] none) sampleState
      ("s1".data) (by decide) rfl rfl rfl
      ("hi".data) [⟨"user".data, "hi".data⟩] [⟨"user".data, "hi".data⟩]
      (by decide) rfl (by decide)
  exact ⟨h1, h5 200 rfl⟩

end StrandsChat
